import Mathlib

/-!
Verification of the eligibility-circuit core of veritas-zero-health.

The development shallowly embeds the Rust sources
`packages/zk/circuits/circuits/composite/src/lib.rs` (age-range circuit),
`packages/zk/circuits/circuits/diagnosis/src/lib.rs` (diagnosis-membership
circuit) and `packages/zk/circuits/plonk-wrappers/plonk-composite/src/lib.rs`
(the halo2 wrapper).  Field elements of the bn256 scalar field `Fr` are
represented as natural numbers; the canonical little-endian byte
representation `to_repr` reduces modulo the field order.  The external
proving backend is abstracted as an explicit function argument, so theorems
quantifying over it capture "for every backend" and results independent of
that argument capture "the backend is never invoked".  Fallible Rust
functions returning `Result<_, E>` with string-carrying error structs are
embedded as `Except String _`.
-/

namespace VeritasZeroHealth

/-- Order of the bn256 (BN254) scalar field `Fr`, the field used by both
circuits. -/
def rBN : Nat :=
  21888242871839275222246405745257275088548364400416034343698204186575808495617

/-- Little-endian byte decomposition of a natural number into exactly `n`
bytes (the shape of `PrimeField::to_repr` for `Fr`, which yields 32 bytes). -/
def toBytesLE : Nat → Nat → List Nat
  | 0, _ => []
  | n + 1, x => (x % 256) :: toBytesLE n (x / 256)

/-- Little-endian reading of a byte list as a natural number
(`u64::from_le_bytes` on the first 8 bytes). -/
def fromBytesLE : List Nat → Nat
  | [] => 0
  | b :: bs => b + 256 * fromBytesLE bs

/-- Canonical 32-byte little-endian representation of an `Fr` element
(`field.to_repr()`); the element's value is its residue modulo `rBN`. -/
def to_repr (x : Nat) : List Nat :=
  toBytesLE 32 (x % rBN)

/-- `field_to_u64` from both circuit crates: takes the canonical byte
representation, fails when it has fewer than 8 bytes, otherwise reads the
first 8 bytes little-endian as a `u64`. -/
def field_to_u64 (x : Nat) : Except String Nat :=
  let bytes := to_repr x
  if bytes.length < 8 then
    .error "Field element too small"
  else
    .ok (fromBytesLE (bytes.take 8))

/-- `validate_age_range` from the composite (age-range) crate: the
client-side predicate check of the hybrid MVP pipeline. -/
def validate_age_range (age min_age max_age : Nat) : Except String Unit :=
  if age < min_age then
    .error ("Age " ++ toString age ++ " is below minimum " ++ toString min_age)
  else if age > max_age then
    .error ("Age " ++ toString age ++ " is above maximum " ++ toString max_age)
  else
    .ok ()

/-- A named-input map (`HashMap<String, Vec<Fr>>`): association list from
field names to lists of field elements. -/
def NamedInputs : Type := List (String × List Nat)

/-- `HashMap::get` on the named-input map. -/
def getInput (inputs : NamedInputs) (name : String) : Option (List Nat) :=
  (List.find? (fun p => p.1 = name) inputs).map (fun p => p.2)

/-- The extraction pattern `inputs.get(name).ok_or(Missing)?.get(0)
.ok_or(Invalid)?` used for every required field in both `generate_proof`
functions. -/
def extractInput (inputs : NamedInputs) (name : String) : Except String Nat :=
  match getInput inputs name with
  | none => .error ("Missing " ++ name)
  | some vs =>
    match vs.head? with
    | none => .error ("Invalid " ++ name)
    | some v => .ok v

/-- The composition of the off-circuit validation block of the age-range
`generate_proof` (the three `field_to_u64` conversions followed by
`validate_age_range`). -/
def validateFieldInputs (age min_age max_age : Nat) : Except String Unit :=
  match field_to_u64 age with
  | .error e => .error e
  | .ok age_u64 =>
    match field_to_u64 min_age with
    | .error e => .error e
    | .ok min_age_u64 =>
      match field_to_u64 max_age with
      | .error e => .error e
      | .ok max_age_u64 => validate_age_range age_u64 min_age_u64 max_age_u64

/-- `AgeRangeCircuit<F>`: private witness `age` (a halo2 `Value`, possibly
unknown) and public `min_age`, `max_age`, `study_id`. -/
structure AgeRangeCircuit where
  age : Option Nat
  min_age : Nat
  max_age : Nat
  study_id : Nat

/-- `CircuitExt::instances` of the age-range circuit: the single
public-input column holds `[min_age, max_age, study_id]`. -/
def AgeRangeCircuit.instances (c : AgeRangeCircuit) : List (List Nat) :=
  [[c.min_age, c.max_age, c.study_id]]

/-- `DiagnosisMembershipCircuit<F>`: private witness `diagnosis_hash` and
public `required_hash`, `study_id`. -/
structure DiagnosisMembershipCircuit where
  diagnosis_hash : Option Nat
  required_hash : Nat
  study_id : Nat

/-- `CircuitExt::instances` of the diagnosis circuit: the public-input
column holds `[required_hash, study_id]`. -/
def DiagnosisMembershipCircuit.instances (c : DiagnosisMembershipCircuit) :
    List (List Nat) :=
  [[c.required_hash, c.study_id]]

namespace Composite

/-- `generate_proof` of the age-range (composite) crate.  The external
proving backend (`PC::ProvingBackend::prove` applied to the constructed
`Halo2Circuit`) is abstracted as `backendProve`; it receives the circuit
built from the validated inputs and yields the proof bytes. -/
def generate_proof (backendProve : AgeRangeCircuit → Except String (List Nat))
    (inputs : NamedInputs) : Except String (List Nat × List Nat) :=
  match extractInput inputs "age" with
  | .error e => .error e
  | .ok age =>
  match extractInput inputs "min_age" with
  | .error e => .error e
  | .ok min_age =>
  match extractInput inputs "max_age" with
  | .error e => .error e
  | .ok max_age =>
  match extractInput inputs "study_id" with
  | .error e => .error e
  | .ok study_id =>
  match field_to_u64 age with
  | .error e => .error e
  | .ok age_u64 =>
  match field_to_u64 min_age with
  | .error e => .error e
  | .ok min_age_u64 =>
  match field_to_u64 max_age with
  | .error e => .error e
  | .ok max_age_u64 =>
  match validate_age_range age_u64 min_age_u64 max_age_u64 with
  | .error e => .error e
  | .ok _ =>
  match backendProve ⟨some age, min_age, max_age, study_id⟩ with
  | .error e => .error ("Proof generation failed: " ++ e)
  | .ok proof => .ok (proof, [min_age, max_age, study_id])

/-- `verify_proof` of the age-range (composite) crate: rejects a
public-input vector whose length is not 3, then delegates to the backend's
`verify` (abstracted as `backendVerify`, receiving the proof bytes and the
instance vector) and wraps a backend error into an `EligibilityError`. -/
def verify_proof
    (backendVerify : List Nat → List (List Nat) → Except String Unit)
    (proof : List Nat) (inputs : List Nat) : Except String Bool :=
  if inputs.length ≠ 3 then
    .error "Invalid number of public inputs (expected 3: min_age, max_age, study_id)"
  else
    match backendVerify proof [inputs] with
    | .ok _ => .ok true
    | .error e => .error ("Verification failed: " ++ e)

end Composite

/-- UTF-8 encoding of a single code point (what `str::bytes` iterates). -/
def utf8Bytes (c : Nat) : List Nat :=
  if c < 0x80 then [c]
  else if c < 0x800 then
    [0xC0 + c / 0x40, 0x80 + c % 0x40]
  else if c < 0x10000 then
    [0xE0 + c / 0x1000, 0x80 + c / 0x40 % 0x40, 0x80 + c % 0x40]
  else
    [0xF0 + c / 0x40000, 0x80 + c / 0x1000 % 0x40, 0x80 + c / 0x40 % 0x40,
      0x80 + c % 0x40]

/-- The byte values of a string, in order (`code.bytes()` in Rust). -/
def stringBytes (s : String) : List Nat :=
  (s.data.map (fun c => utf8Bytes c.toNat)).flatten

namespace Diagnosis

/-- `hash_diagnosis_code` of the diagnosis crate: sums the byte values of
the code string into a `u64` accumulator. -/
def hash_diagnosis_code (code : String) : Except String Nat :=
  .ok ((stringBytes code).foldl (fun acc b => (acc + b) % 2 ^ 64) 0)

/-- `validate_diagnosis_membership` of the diagnosis crate: fails unless
the required diagnosis occurs among the patient's diagnosis codes. -/
def validate_diagnosis_membership (patient_diagnoses : List String)
    (required_diagnosis : String) : Except String Unit :=
  if required_diagnosis ∈ patient_diagnoses then
    .ok ()
  else
    .error ("Patient does not have required diagnosis: " ++ required_diagnosis)

/-- `generate_proof` of the diagnosis crate, backend abstracted as in the
composite case; the off-circuit check is equality of the two hashes'
low-64-bit views. -/
def generate_proof
    (backendProve : DiagnosisMembershipCircuit → Except String (List Nat))
    (inputs : NamedInputs) : Except String (List Nat × List Nat) :=
  match extractInput inputs "diagnosis_hash" with
  | .error e => .error e
  | .ok diagnosis_hash =>
  match extractInput inputs "required_hash" with
  | .error e => .error e
  | .ok required_hash =>
  match extractInput inputs "study_id" with
  | .error e => .error e
  | .ok study_id =>
  match field_to_u64 diagnosis_hash with
  | .error e => .error e
  | .ok diag_hash_u64 =>
  match field_to_u64 required_hash with
  | .error e => .error e
  | .ok req_hash_u64 =>
  if diag_hash_u64 ≠ req_hash_u64 then
    .error ("Diagnosis hash " ++ toString diag_hash_u64 ++
      " does not match required hash " ++ toString req_hash_u64)
  else
    match backendProve ⟨some diagnosis_hash, required_hash, study_id⟩ with
    | .error e => .error ("Proof generation failed: " ++ e)
    | .ok proof => .ok (proof, [required_hash, study_id])

/-- `verify_proof` of the diagnosis crate: rejects a public-input vector
whose length is not 2, then delegates to the backend and wraps a backend
error into a `DiagnosisError`. -/
def verify_proof
    (backendVerify : List Nat → List (List Nat) → Except String Unit)
    (proof : List Nat) (inputs : List Nat) : Except String Bool :=
  if inputs.length ≠ 2 then
    .error "Invalid number of public inputs (expected 2: required_hash, study_id)"
  else
    match backendVerify proof [inputs] with
    | .ok _ => .ok true
    | .error e => .error ("Verification failed: " ++ e)

end Diagnosis

namespace PlonkComposite

/-- `verify_halo2_proof` of the plonk wrapper: runs the halo2 verifier
(abstracted as `backendVerify`) and returns `Ok` of `is_ok()` — every
backend outcome, success or error, is collapsed into a boolean. -/
def verify_halo2_proof
    (backendVerify : List Nat → List (List Nat) → Except String Unit)
    (proof : List Nat) (public_inputs : List Nat) : Except String Bool :=
  .ok (match backendVerify proof [public_inputs] with
    | .ok _ => true
    | .error _ => false)

end PlonkComposite

/-- The bn256 scalar field as a type (circuit arithmetic). -/
abbrev Fp : Type := ZMod rBN

/-- Shape of the polynomial expressions built inside `create_gate`: a
queried selector, a queried advice cell (by column index, at the current
rotation), and the `Sub`/`Mul` expression nodes the gates use. -/
inductive CExpr : Type where
  | sel : CExpr
  | adv : Nat → CExpr
  | sub : CExpr → CExpr → CExpr
  | mul : CExpr → CExpr → CExpr

/-- Evaluation of a gate expression at one witness assignment: `s` is the
selector's value at the constraint row, `a` the advice columns' values. -/
def evalCExpr (s : Fp) (a : Nat → Fp) : CExpr → Fp
  | .sel => s
  | .adv i => a i
  | .sub x y => evalCExpr s a x - evalCExpr s a y
  | .mul x y => evalCExpr s a x * evalCExpr s a y

/-- The "age knowledge" gate of `AgeRangeCircuit::configure`:
`[ s * (age_val - age_val) ]`, with `age` in advice column 0
(`min_age`, `max_age` occupy columns 1 and 2 but do not appear in the
returned constraint). -/
def ageKnowledgeGate : List CExpr :=
  [.mul .sel (.sub (.adv 0) (.adv 0))]

/-- The "diagnosis membership" gate of
`DiagnosisMembershipCircuit::configure`: `[ s * (diag_hash - diag_hash) ]`,
with `diagnosis_hash` in advice column 0 (`required_hash is queried but
unused in the returned constraint). -/
def diagnosisMembershipGate : List CExpr :=
  [.mul .sel (.sub (.adv 0) (.adv 0))]

/-- The values of a gate's constraint polynomials at one assignment; the
assignment satisfies the gate when every entry is zero. -/
def gateEval (g : List CExpr) (s : Fp) (a : Nat → Fp) : List Fp :=
  g.map (evalCExpr s a)

/-- Modelled from the spec: the serialization module
(`composite/src/serialization.rs`, `InputsSerializationWrapper` with
bincode) is not among the repository files provided; the spec says the
public-input vector is serialized as an ordered byte encoding.  Encoding: a
fixed 8-byte little-endian length prefix followed by each field element as
32 little-endian bytes, in order. -/
def serialize_public_inputs (v : List Nat) : List Nat :=
  toBytesLE 8 v.length ++ (v.map (fun x => toBytesLE 32 x)).flatten

/-- Modelled from the spec: reads `n` consecutive 32-byte little-endian
field elements, failing with a "corrupt input" condition on truncated or
trailing bytes. -/
def readChunks : Nat → List Nat → Except String (List Nat)
  | 0, bs => if bs.isEmpty then .ok [] else .error "corrupt input: trailing bytes"
  | n + 1, bs =>
    if bs.length < 32 then .error "corrupt input: truncated field element"
    else
      match readChunks n (bs.drop 32) with
      | .error e => .error e
      | .ok rest => .ok (fromBytesLE (bs.take 32) :: rest)

/-- Modelled from the spec: deserialization of a public-input vector; must
reproduce the exact ordered sequence of field elements or fail with a
"corrupt input" condition. -/
def deserialize_public_inputs (bytes : List Nat) : Except String (List Nat) :=
  if bytes.length < 8 then .error "corrupt input: missing length prefix"
  else readChunks (fromBytesLE (bytes.take 8)) (bytes.drop 8)

/-- The named fields the age-range `generate_proof` requires, in extraction
order. -/
def ageRequiredFields : List String := ["age", "min_age", "max_age", "study_id"]

/-- The named fields the diagnosis `generate_proof` requires, in extraction
order. -/
def diagnosisRequiredFields : List String :=
  ["diagnosis_hash", "required_hash", "study_id"]

/-- The structured missing/invalid-field error messages of the age-range
`generate_proof`. -/
def ageFieldErrors : List String :=
  ["Missing age", "Invalid age", "Missing min_age", "Invalid min_age",
    "Missing max_age", "Invalid max_age", "Missing study_id", "Invalid study_id"]

/-- The structured missing/invalid-field error messages of the diagnosis
`generate_proof`. -/
def diagnosisFieldErrors : List String :=
  ["Missing diagnosis_hash", "Invalid diagnosis_hash", "Missing required_hash",
    "Invalid required_hash", "Missing study_id", "Invalid study_id"]

/-- A required field is absent from the named-input map or maps to an empty
list. -/
def missingOrEmpty (inputs : NamedInputs) (name : String) : Prop :=
  getInput inputs name = none ∨ getInput inputs name = some []

/-- Low 64 bits of an `Fr` element's canonical representation: the `u64`
view `field_to_u64` produces. -/
def low64 (x : Nat) : Nat := x % rBN % 2 ^ 64

/-! ### Supporting lemmas -/

theorem toBytesLE_length (n x : Nat) : (toBytesLE n x).length = n := by
  induction n generalizing x with
  | zero => rfl
  | succ n ih => simp [toBytesLE, ih]

theorem toBytesLE_take (k n x : Nat) (h : k ≤ n) :
    (toBytesLE n x).take k = toBytesLE k x := by
  induction k generalizing n x with
  | zero => simp [toBytesLE]
  | succ k ih =>
    cases n with
    | zero => omega
    | succ n =>
      simp only [toBytesLE, List.take_succ_cons]
      rw [ih n (x / 256) (by omega)]

theorem fromBytesLE_toBytesLE (n x : Nat) :
    fromBytesLE (toBytesLE n x) = x % 256 ^ n := by
  induction n generalizing x with
  | zero => simp [toBytesLE, fromBytesLE, Nat.mod_one]
  | succ n ih =>
    simp only [toBytesLE, fromBytesLE, ih]
    have h1 : x % 256 ^ (n + 1) % 256 = x % 256 :=
      Nat.mod_mod_of_dvd x ⟨256 ^ n, by ring⟩
    have h2 : x % (256 * 256 ^ n) / 256 = x / 256 % 256 ^ n :=
      Nat.mod_mul_right_div_self x 256 (256 ^ n)
    have h3 : 256 ^ (n + 1) = 256 * 256 ^ n := by ring
    have h4 := Nat.div_add_mod (x % 256 ^ (n + 1)) 256
    rw [h1] at h4
    rw [h3] at h4 ⊢
    rw [h3] at h1
    omega

theorem field_to_u64_eq (x : Nat) : field_to_u64 x = .ok (low64 x) := by
  have hlen : (to_repr x).length = 32 := toBytesLE_length 32 (x % rBN)
  simp only [field_to_u64, hlen]
  norm_num
  rw [to_repr, toBytesLE_take 8 32 _ (by omega), fromBytesLE_toBytesLE]
  norm_num [low64]

theorem foldl_mod_add (M : Nat) (hM : 0 < M) (l : List Nat) :
    ∀ acc : Nat, acc < M →
      l.foldl (fun acc b => (acc + b) % M) acc = (acc + l.sum) % M := by
  induction l with
  | nil => intro acc h; simp [Nat.mod_eq_of_lt h]
  | cons b t ih =>
    intro acc h
    simp only [List.foldl_cons, List.sum_cons]
    rw [ih _ (Nat.mod_lt _ hM), Nat.mod_add_mod]
    congr 1
    omega

theorem extractInput_of_missingOrEmpty (inputs : NamedInputs) (name : String)
    (h : missingOrEmpty inputs name) :
    extractInput inputs name = .error ("Missing " ++ name) ∨
    extractInput inputs name = .error ("Invalid " ++ name) := by
  unfold extractInput
  rcases h with h | h
  · rw [h]; left; rfl
  · rw [h]; right; rfl

theorem extractInput_error_msg (inputs : NamedInputs) (name e : String)
    (h : extractInput inputs name = .error e) :
    e = "Missing " ++ name ∨ e = "Invalid " ++ name := by
  unfold extractInput at h
  cases hg : getInput inputs name with
  | none =>
    rw [hg] at h
    left
    exact (Except.error.inj h).symm
  | some vs =>
    simp only [hg] at h
    cases hv : vs.head? with
    | none =>
      simp only [hv] at h
      right
      exact (Except.error.inj h).symm
    | some v =>
      simp only [hv] at h
      exact Except.noConfusion h

theorem validateFieldInputs_eq (age min_age max_age : Nat) :
    validateFieldInputs age min_age max_age =
      validate_age_range (low64 age) (low64 min_age) (low64 max_age) := by
  unfold validateFieldInputs
  simp only [field_to_u64_eq]

theorem age_generate_field_error (inputs : NamedInputs) (n : String)
    (hmem : n ∈ ageRequiredFields) (hmiss : missingOrEmpty inputs n) :
    ∃ m ∈ ageFieldErrors, ∀ bp, Composite.generate_proof bp inputs = .error m := by
  cases h1 : extractInput inputs "age" with
  | error e =>
    refine ⟨e, ?_, fun bp => ?_⟩
    · rcases extractInput_error_msg _ _ _ h1 with h | h <;> subst h <;> decide
    · unfold Composite.generate_proof; simp only [h1]
  | ok age =>
  cases h2 : extractInput inputs "min_age" with
  | error e =>
    refine ⟨e, ?_, fun bp => ?_⟩
    · rcases extractInput_error_msg _ _ _ h2 with h | h <;> subst h <;> decide
    · unfold Composite.generate_proof; simp only [h1, h2]
  | ok mi =>
  cases h3 : extractInput inputs "max_age" with
  | error e =>
    refine ⟨e, ?_, fun bp => ?_⟩
    · rcases extractInput_error_msg _ _ _ h3 with h | h <;> subst h <;> decide
    · unfold Composite.generate_proof; simp only [h1, h2, h3]
  | ok ma =>
  cases h4 : extractInput inputs "study_id" with
  | error e =>
    refine ⟨e, ?_, fun bp => ?_⟩
    · rcases extractInput_error_msg _ _ _ h4 with h | h <;> subst h <;> decide
    · unfold Composite.generate_proof; simp only [h1, h2, h3, h4]
  | ok st =>
  exfalso
  have hbad := extractInput_of_missingOrEmpty inputs n hmiss
  simp only [ageRequiredFields, List.mem_cons, List.not_mem_nil, or_false] at hmem
  rcases hmem with rfl | rfl | rfl | rfl
  · rcases hbad with h | h <;> rw [h1] at h <;> exact Except.noConfusion h
  · rcases hbad with h | h <;> rw [h2] at h <;> exact Except.noConfusion h
  · rcases hbad with h | h <;> rw [h3] at h <;> exact Except.noConfusion h
  · rcases hbad with h | h <;> rw [h4] at h <;> exact Except.noConfusion h

theorem diagnosis_generate_field_error (inputs : NamedInputs) (n : String)
    (hmem : n ∈ diagnosisRequiredFields) (hmiss : missingOrEmpty inputs n) :
    ∃ m ∈ diagnosisFieldErrors, ∀ bp, Diagnosis.generate_proof bp inputs = .error m := by
  cases h1 : extractInput inputs "diagnosis_hash" with
  | error e =>
    refine ⟨e, ?_, fun bp => ?_⟩
    · rcases extractInput_error_msg _ _ _ h1 with h | h <;> subst h <;> decide
    · unfold Diagnosis.generate_proof; simp only [h1]
  | ok dh =>
  cases h2 : extractInput inputs "required_hash" with
  | error e =>
    refine ⟨e, ?_, fun bp => ?_⟩
    · rcases extractInput_error_msg _ _ _ h2 with h | h <;> subst h <;> decide
    · unfold Diagnosis.generate_proof; simp only [h1, h2]
  | ok rh =>
  cases h3 : extractInput inputs "study_id" with
  | error e =>
    refine ⟨e, ?_, fun bp => ?_⟩
    · rcases extractInput_error_msg _ _ _ h3 with h | h <;> subst h <;> decide
    · unfold Diagnosis.generate_proof; simp only [h1, h2, h3]
  | ok st =>
  exfalso
  have hbad := extractInput_of_missingOrEmpty inputs n hmiss
  simp only [diagnosisRequiredFields, List.mem_cons, List.not_mem_nil, or_false] at hmem
  rcases hmem with rfl | rfl | rfl
  · rcases hbad with h | h <;> rw [h1] at h <;> exact Except.noConfusion h
  · rcases hbad with h | h <;> rw [h2] at h <;> exact Except.noConfusion h
  · rcases hbad with h | h <;> rw [h3] at h <;> exact Except.noConfusion h

theorem readChunks_flatten (v : List Nat) (hlt : ∀ x ∈ v, x < 2 ^ 256) :
    readChunks v.length ((v.map (fun x => toBytesLE 32 x)).flatten) = .ok v := by
  induction v with
  | nil => rfl
  | cons x t ih =>
    simp only [List.map_cons, List.flatten_cons, List.length_cons]
    unfold readChunks
    have hlen : (toBytesLE 32 x).length = 32 := toBytesLE_length 32 x
    rw [if_neg (by simp [hlen])]
    have hdrop : (toBytesLE 32 x ++ (t.map (fun y => toBytesLE 32 y)).flatten).drop 32 =
        (t.map (fun y => toBytesLE 32 y)).flatten := by
      rw [← hlen]; exact List.drop_left _ _
    have htake : (toBytesLE 32 x ++ (t.map (fun y => toBytesLE 32 y)).flatten).take 32 =
        toBytesLE 32 x := by
      rw [← hlen]; exact List.take_left _ _
    rw [hdrop, htake, ih (fun y hy => hlt y (List.mem_cons_of_mem x hy)),
      fromBytesLE_toBytesLE]
    have hx : x % 256 ^ 32 = x := by
      apply Nat.mod_eq_of_lt
      have := hlt x (List.mem_cons_self x t)
      calc x < 2 ^ 256 := this
        _ = 256 ^ 32 := by norm_num
    rw [hx]

/-! ### The claims -/

/-- C1: the in-circuit gate expressions of the age-range circuit ("age
knowledge") and of the diagnosis-membership circuit ("diagnosis
membership") evaluate to zero at every witness assignment — each is
`selector * (x - x)` — so every assignment satisfies them; in particular an
assignment with `age = 17`, `min_age = 18`, `max_age = 65` and one with
`diagnosis_hash = 5 ≠ required_hash = 7` satisfy the gates, which therefore
do not algebraically enforce the range or hash-equality predicate. -/
theorem gates_identically_zero :
    (∀ (s : Fp) (a : Nat → Fp), gateEval ageKnowledgeGate s a = [0]) ∧
    (∀ (s : Fp) (a : Nat → Fp), gateEval diagnosisMembershipGate s a = [0]) ∧
    gateEval ageKnowledgeGate 1
      (fun i => if i = 0 then 17 else if i = 1 then 18 else 65) = [0] ∧
    gateEval diagnosisMembershipGate 1 (fun i => if i = 0 then 5 else 7) = [0] := by
  refine ⟨?_, ?_, ?_, ?_⟩ <;>
    simp [gateEval, ageKnowledgeGate, diagnosisMembershipGate, evalCExpr,
      sub_self, mul_zero]

/-- C2 counterexample: the circuit-level `verify_proof` does not map a
backend-level verification error to the boolean rejection outcome: with a
backend that fails and a well-sized public-input vector, it returns the
error value `Verification failed: ...` — never `Ok true` or `Ok false`. -/
theorem verify_surfaces_backend_error :
    Composite.verify_proof (fun _ _ => .error "backend failure") [] [0, 0, 0] =
      .error "Verification failed: backend failure" ∧
    ∀ b : Bool,
      Composite.verify_proof (fun _ _ => .error "backend failure") [] [0, 0, 0] ≠
        .ok b := by
  refine ⟨rfl, ?_⟩
  intro b h
  rw [show Composite.verify_proof (fun _ _ => Except.error "backend failure") []
      [0, 0, 0] = Except.error "Verification failed: backend failure" from rfl] at h
  exact Except.noConfusion h

/-- C2 (amended): the plonk-wrapper `verify_halo2_proof` is total — for
every backend outcome it returns `Ok true` or `Ok false`, mapping any
backend-level error to the boolean rejection `Ok false` — while the
circuit-level `verify_proof` functions instead wrap a backend-level error
into an error value (`Verification failed: ...`) surfaced to the caller. -/
theorem verify_totality_amended :
    (∀ (bv : List Nat → List (List Nat) → Except String Unit)
      (proof pubs : List Nat),
      PlonkComposite.verify_halo2_proof bv proof pubs = .ok true ∨
      PlonkComposite.verify_halo2_proof bv proof pubs = .ok false) ∧
    (∀ (bv : List Nat → List (List Nat) → Except String Unit)
      (proof pubs : List Nat) (e : String),
      bv proof [pubs] = .error e →
      PlonkComposite.verify_halo2_proof bv proof pubs = .ok false) ∧
    (∀ (bv : List Nat → List (List Nat) → Except String Unit)
      (proof pubs : List Nat),
      bv proof [pubs] = .ok () →
      PlonkComposite.verify_halo2_proof bv proof pubs = .ok true) ∧
    (∀ (bv : List Nat → List (List Nat) → Except String Unit)
      (proof pubs : List Nat) (e : String),
      pubs.length = 3 → bv proof [pubs] = .error e →
      Composite.verify_proof bv proof pubs =
        .error ("Verification failed: " ++ e)) ∧
    (∀ (bv : List Nat → List (List Nat) → Except String Unit)
      (proof pubs : List Nat) (e : String),
      pubs.length = 2 → bv proof [pubs] = .error e →
      Diagnosis.verify_proof bv proof pubs =
        .error ("Verification failed: " ++ e)) := by
  refine ⟨?_, ?_, ?_, ?_, ?_⟩
  · intro bv proof pubs
    unfold PlonkComposite.verify_halo2_proof
    cases bv proof [pubs] with
    | ok u => left; rfl
    | error e => right; rfl
  · intro bv proof pubs e h
    unfold PlonkComposite.verify_halo2_proof
    rw [h]
  · intro bv proof pubs h
    unfold PlonkComposite.verify_halo2_proof
    rw [h]
  · intro bv proof pubs e hlen h
    unfold Composite.verify_proof
    rw [if_neg (by omega), h]
  · intro bv proof pubs e hlen h
    unfold Diagnosis.verify_proof
    rw [if_neg (by omega), h]

/-- C3: for every named-input map whose extracted `age`, `min_age`,
`max_age` values (as `u64`, i.e. the low 64 bits of the canonical
representation) are out of range, the age-range `generate_proof` returns
the predicate error `validate_age_range` produces, for every backend — so
the backend `prove` call is never invoked and no proof is produced. -/
theorem generate_out_of_range_predicate_error :
    ∀ (inputs : NamedInputs) (age min_age max_age study_id : Nat),
      extractInput inputs "age" = .ok age →
      extractInput inputs "min_age" = .ok min_age →
      extractInput inputs "max_age" = .ok max_age →
      extractInput inputs "study_id" = .ok study_id →
      low64 age < low64 min_age ∨ low64 age > low64 max_age →
      ∃ msg : String,
        validate_age_range (low64 age) (low64 min_age) (low64 max_age) =
          .error msg ∧
        ∀ bp, Composite.generate_proof bp inputs = .error msg := by
  intro inputs a mi ma st h1 h2 h3 h4 hrange
  obtain ⟨msg, hmsg⟩ :
      ∃ msg, validate_age_range (low64 a) (low64 mi) (low64 ma) = .error msg := by
    unfold validate_age_range
    rcases hrange with h | h
    · exact ⟨_, by rw [if_pos h]⟩
    · by_cases hlo : low64 a < low64 mi
      · exact ⟨_, by rw [if_pos hlo]⟩
      · exact ⟨_, by rw [if_neg hlo, if_pos h]⟩
  refine ⟨msg, hmsg, fun bp => ?_⟩
  unfold Composite.generate_proof
  simp only [h1, h2, h3, h4, field_to_u64_eq, hmsg]

/-- C3 witness: the map `{age ↦ 17, min_age ↦ 18, max_age ↦ 65,
study_id ↦ 1}` is rejected with the predicate error for every backend. -/
theorem generate_out_of_range_predicate_error_witness :
    ∃ msg : String,
      validate_age_range (low64 17) (low64 18) (low64 65) = .error msg ∧
      ∀ bp, Composite.generate_proof bp
        [("age", [17]), ("min_age", [18]), ("max_age", [65]), ("study_id", [1])] =
          .error msg :=
  generate_out_of_range_predicate_error
    [("age", [17]), ("min_age", [18]), ("max_age", [65]), ("study_id", [1])]
    17 18 65 1 rfl rfl rfl rfl (Or.inl (by decide))

/-- C4: for every supplied public-input vector whose length differs from
the circuit's declared arity (3 for age-range, 2 for diagnosis),
`verify_proof` fails with the invalid-public-input-count error, for every
backend — hence before any backend verification call. -/
theorem verify_wrong_arity_fails_fast :
    ∀ (bv : List Nat → List (List Nat) → Except String Unit)
      (proof inputsA inputsD : List Nat),
      inputsA.length ≠ 3 → inputsD.length ≠ 2 →
      Composite.verify_proof bv proof inputsA =
        .error "Invalid number of public inputs (expected 3: min_age, max_age, study_id)" ∧
      Diagnosis.verify_proof bv proof inputsD =
        .error "Invalid number of public inputs (expected 2: required_hash, study_id)" := by
  intro bv proof iA iD hA hD
  constructor
  · unfold Composite.verify_proof
    rw [if_pos hA]
  · unfold Diagnosis.verify_proof
    rw [if_pos hD]

/-- C4 witness: a one-element vector is rejected by both circuits' verify
with the invalid-count error, even under an always-accepting backend. -/
theorem verify_wrong_arity_fails_fast_witness :
    Composite.verify_proof (fun _ _ => .ok ()) [] [0] =
      .error "Invalid number of public inputs (expected 3: min_age, max_age, study_id)" ∧
    Diagnosis.verify_proof (fun _ _ => .ok ()) [] [0] =
      .error "Invalid number of public inputs (expected 2: required_hash, study_id)" :=
  verify_wrong_arity_fails_fast (fun _ _ => .ok ()) [] [0] [0]
    (by decide) (by decide)

/-- C5: for every named-input map in which a required field is absent or
maps to an empty list, `generate_proof` fails with one of the structured
missing/invalid-field errors, for every backend — no proof is produced;
both for the age-range and the diagnosis circuit. -/
theorem generate_missing_field_error :
    ∀ (inputsA inputsD : NamedInputs) (nA nD : String),
      nA ∈ ageRequiredFields → missingOrEmpty inputsA nA →
      nD ∈ diagnosisRequiredFields → missingOrEmpty inputsD nD →
      (∃ m ∈ ageFieldErrors,
        ∀ bp, Composite.generate_proof bp inputsA = .error m) ∧
      (∃ m ∈ diagnosisFieldErrors,
        ∀ bp, Diagnosis.generate_proof bp inputsD = .error m) :=
  fun iA iD nA nD h1 h2 h3 h4 =>
    ⟨age_generate_field_error iA nA h1 h2,
      diagnosis_generate_field_error iD nD h3 h4⟩

/-- C5 witness: a map lacking `max_age` and a map whose `required_hash` is
an empty list are both rejected with a structured field error, for every
backend. -/
theorem generate_missing_field_error_witness :
    (∃ m ∈ ageFieldErrors,
      ∀ bp, Composite.generate_proof bp [("age", [30]), ("min_age", [18])] =
        .error m) ∧
    (∃ m ∈ diagnosisFieldErrors,
      ∀ bp, Diagnosis.generate_proof bp
        [("diagnosis_hash", [270]), ("required_hash", [])] = .error m) :=
  generate_missing_field_error [("age", [30]), ("min_age", [18])]
    [("diagnosis_hash", [270]), ("required_hash", [])]
    "max_age" "required_hash" (by decide) (Or.inl rfl) (by decide) (Or.inr rfl)

/-- C6: `validate_age_range` succeeds exactly when
`min_age ≤ age ≤ max_age` (bounds inclusive); on failure the message
identifies the violated bound, and concretely
`validate_age_range 30 18 65` succeeds while `validate_age_range 17 18 65`
fails naming 17 as below 18. -/
theorem validate_age_range_spec :
    (∀ a mi ma : Nat, validate_age_range a mi ma = .ok () ↔ mi ≤ a ∧ a ≤ ma) ∧
    (∀ a mi ma : Nat, a < mi →
      validate_age_range a mi ma =
        .error ("Age " ++ toString a ++ " is below minimum " ++ toString mi)) ∧
    (∀ a mi ma : Nat, mi ≤ a → ma < a →
      validate_age_range a mi ma =
        .error ("Age " ++ toString a ++ " is above maximum " ++ toString ma)) ∧
    validate_age_range 30 18 65 = .ok () ∧
    validate_age_range 17 18 65 = .error "Age 17 is below minimum 18" := by
  refine ⟨?_, ?_, ?_, rfl, rfl⟩
  · intro a mi ma
    unfold validate_age_range
    split_ifs with h1 h2 <;> simp <;> omega
  · intro a mi ma h
    unfold validate_age_range
    rw [if_pos h]
  · intro a mi ma h1 h2
    unfold validate_age_range
    rw [if_neg (by omega), if_pos h2]

/-- C7: `hash_diagnosis_code` is a deterministic function equal to the sum
of the byte values of its input string in a `u64` accumulator; in
particular `hash("E11.9")` always equals `hash("E11.9")` and differs from
`hash("I10")`. -/
theorem hash_diagnosis_code_spec :
    (∀ s : String, Diagnosis.hash_diagnosis_code s =
      .ok ((stringBytes s).sum % 2 ^ 64)) ∧
    Diagnosis.hash_diagnosis_code "E11.9" = Diagnosis.hash_diagnosis_code "E11.9" ∧
    Diagnosis.hash_diagnosis_code "E11.9" = .ok 270 ∧
    Diagnosis.hash_diagnosis_code "I10" = .ok 170 ∧
    Diagnosis.hash_diagnosis_code "E11.9" ≠ Diagnosis.hash_diagnosis_code "I10" := by
  refine ⟨?_, rfl, rfl, rfl, ?_⟩
  · intro s
    unfold Diagnosis.hash_diagnosis_code
    rw [foldl_mod_add (2 ^ 64) (by norm_num) _ 0 (by norm_num), Nat.zero_add]
  · intro h
    have h1 : Diagnosis.hash_diagnosis_code "E11.9" = Except.ok 270 := rfl
    have h2 : Diagnosis.hash_diagnosis_code "I10" = Except.ok 170 := rfl
    rw [h1, h2] at h
    injection h with h3
    omega

/-- C8: on success, `generate_proof` returns the public-input vector whose
contents and order equal the circuit's declared instance vector:
`[min_age, max_age, study_id]` for the age-range circuit and
`[required_hash, study_id]` for the diagnosis circuit. -/
theorem generate_public_inputs_match_instances :
    ∀ (bpA : AgeRangeCircuit → Except String (List Nat)) (inputsA : NamedInputs)
      (prA pubsA : List Nat)
      (bpD : DiagnosisMembershipCircuit → Except String (List Nat))
      (inputsD : NamedInputs) (prD pubsD : List Nat),
      Composite.generate_proof bpA inputsA = .ok (prA, pubsA) →
      Diagnosis.generate_proof bpD inputsD = .ok (prD, pubsD) →
      (∃ age min_age max_age study_id,
        extractInput inputsA "age" = .ok age ∧
        extractInput inputsA "min_age" = .ok min_age ∧
        extractInput inputsA "max_age" = .ok max_age ∧
        extractInput inputsA "study_id" = .ok study_id ∧
        pubsA = [min_age, max_age, study_id] ∧
        [pubsA] = AgeRangeCircuit.instances
          ⟨some age, min_age, max_age, study_id⟩) ∧
      (∃ diagnosis_hash required_hash study_id,
        extractInput inputsD "diagnosis_hash" = .ok diagnosis_hash ∧
        extractInput inputsD "required_hash" = .ok required_hash ∧
        extractInput inputsD "study_id" = .ok study_id ∧
        pubsD = [required_hash, study_id] ∧
        [pubsD] = DiagnosisMembershipCircuit.instances
          ⟨some diagnosis_hash, required_hash, study_id⟩) := by
  intro bpA inputsA prA pubsA bpD inputsD prD pubsD hA hD
  constructor
  · unfold Composite.generate_proof at hA
    cases h1 : extractInput inputsA "age" with
    | error e => rw [h1] at hA; exact Except.noConfusion hA
    | ok age =>
    simp only [h1] at hA
    cases h2 : extractInput inputsA "min_age" with
    | error e => rw [h2] at hA; exact Except.noConfusion hA
    | ok min_age =>
    simp only [h2] at hA
    cases h3 : extractInput inputsA "max_age" with
    | error e => rw [h3] at hA; exact Except.noConfusion hA
    | ok max_age =>
    simp only [h3] at hA
    cases h4 : extractInput inputsA "study_id" with
    | error e => rw [h4] at hA; exact Except.noConfusion hA
    | ok study_id =>
    simp only [h4, field_to_u64_eq] at hA
    cases h5 : validate_age_range (low64 age) (low64 min_age) (low64 max_age) with
    | error e => rw [h5] at hA; exact Except.noConfusion hA
    | ok u =>
    simp only [h5] at hA
    cases h6 : bpA ⟨some age, min_age, max_age, study_id⟩ with
    | error e => rw [h6] at hA; exact Except.noConfusion hA
    | ok proof =>
    simp only [h6, Except.ok.injEq, Prod.mk.injEq] at hA
    obtain ⟨hpr, hpubs⟩ := hA
    subst hpubs
    exact ⟨age, min_age, max_age, study_id, rfl, rfl, rfl, rfl, rfl, rfl⟩
  · unfold Diagnosis.generate_proof at hD
    cases h1 : extractInput inputsD "diagnosis_hash" with
    | error e => rw [h1] at hD; exact Except.noConfusion hD
    | ok dh =>
    simp only [h1] at hD
    cases h2 : extractInput inputsD "required_hash" with
    | error e => rw [h2] at hD; exact Except.noConfusion hD
    | ok rh =>
    simp only [h2] at hD
    cases h3 : extractInput inputsD "study_id" with
    | error e => rw [h3] at hD; exact Except.noConfusion hD
    | ok st =>
    simp only [h3, field_to_u64_eq] at hD
    by_cases hne : low64 dh ≠ low64 rh
    · rw [if_pos hne] at hD; exact Except.noConfusion hD
    · rw [if_neg hne] at hD
      cases h6 : bpD ⟨some dh, rh, st⟩ with
      | error e => rw [h6] at hD; exact Except.noConfusion hD
      | ok proof =>
      simp only [h6, Except.ok.injEq, Prod.mk.injEq] at hD
      obtain ⟨hpr, hpubs⟩ := hD
      subst hpubs
      exact ⟨dh, rh, st, rfl, rfl, rfl, rfl, rfl⟩

/-- C8 witness: concrete successful runs of both `generate_proof`
functions, whose returned public inputs equal the circuits' instance
vectors. -/
theorem generate_public_inputs_match_instances_witness :
    (∃ age min_age max_age study_id,
      extractInput [("age", [30]), ("min_age", [18]), ("max_age", [65]),
        ("study_id", [1])] "age" = .ok age ∧
      extractInput [("age", [30]), ("min_age", [18]), ("max_age", [65]),
        ("study_id", [1])] "min_age" = .ok min_age ∧
      extractInput [("age", [30]), ("min_age", [18]), ("max_age", [65]),
        ("study_id", [1])] "max_age" = .ok max_age ∧
      extractInput [("age", [30]), ("min_age", [18]), ("max_age", [65]),
        ("study_id", [1])] "study_id" = .ok study_id ∧
      [18, 65, 1] = [min_age, max_age, study_id] ∧
      [[18, 65, 1]] = AgeRangeCircuit.instances
        ⟨some age, min_age, max_age, study_id⟩) ∧
    (∃ diagnosis_hash required_hash study_id,
      extractInput [("diagnosis_hash", [270]), ("required_hash", [270]),
        ("study_id", [1])] "diagnosis_hash" = .ok diagnosis_hash ∧
      extractInput [("diagnosis_hash", [270]), ("required_hash", [270]),
        ("study_id", [1])] "required_hash" = .ok required_hash ∧
      extractInput [("diagnosis_hash", [270]), ("required_hash", [270]),
        ("study_id", [1])] "study_id" = .ok study_id ∧
      [270, 1] = [required_hash, study_id] ∧
      [[270, 1]] = DiagnosisMembershipCircuit.instances
        ⟨some diagnosis_hash, required_hash, study_id⟩) :=
  generate_public_inputs_match_instances (fun _ => .ok [9])
    [("age", [30]), ("min_age", [18]), ("max_age", [65]), ("study_id", [1])]
    [9] [18, 65, 1] (fun _ => .ok [7])
    [("diagnosis_hash", [270]), ("required_hash", [270]), ("study_id", [1])]
    [7] [270, 1] rfl rfl

/-- C9: serializing a public-input vector of field elements and
deserializing the resulting bytes reproduces the identical ordered
sequence, for every vector of 1, 2 or 3 elements. -/
theorem public_inputs_roundtrip :
    ∀ v : List Nat, (v.length = 1 ∨ v.length = 2 ∨ v.length = 3) →
      (∀ x ∈ v, x < rBN) →
      deserialize_public_inputs (serialize_public_inputs v) = .ok v := by
  intro v hlen hlt
  unfold serialize_public_inputs deserialize_public_inputs
  have h8 : (toBytesLE 8 v.length).length = 8 := toBytesLE_length 8 v.length
  rw [if_neg (by simp [h8])]
  have htake : (toBytesLE 8 v.length ++
      (v.map (fun x => toBytesLE 32 x)).flatten).take 8 = toBytesLE 8 v.length := by
    rw [← h8]; exact List.take_left _ _
  have hdrop : (toBytesLE 8 v.length ++
      (v.map (fun x => toBytesLE 32 x)).flatten).drop 8 =
      (v.map (fun x => toBytesLE 32 x)).flatten := by
    rw [← h8]; exact List.drop_left _ _
  rw [htake, hdrop, fromBytesLE_toBytesLE]
  have hsmall : v.length % 256 ^ 8 = v.length := by
    apply Nat.mod_eq_of_lt
    rcases hlen with h | h | h <;> rw [h] <;> norm_num
  rw [hsmall]
  refine readChunks_flatten v (fun x hx => ?_)
  calc x < rBN := hlt x hx
    _ < 2 ^ 256 := by norm_num [rBN]

/-- C9 witness: the three-element vector `[1, 2, 3]` round-trips. -/
theorem public_inputs_roundtrip_witness :
    deserialize_public_inputs (serialize_public_inputs [1, 2, 3]) =
      .ok [1, 2, 3] :=
  public_inputs_roundtrip [1, 2, 3] (Or.inr (Or.inr rfl)) (by decide)

/-- C10: every `Fr` element's canonical representation has 32 bytes, so
the "Field element too small" branch of `field_to_u64` is unreachable and
it returns the integer read little-endian from the first 8 bytes, which is
the low 64 bits of the element; consequently the off-circuit validation of
the age-range `generate_proof` depends only on the low 64 bits of each
input, and inputs agreeing on those 8 bytes are both accepted or both
rejected. -/
theorem field_to_u64_low_bits :
    ∀ x x' mi mi' ma ma' : Nat,
      (to_repr x).length = 32 ∧
      field_to_u64 x = .ok (fromBytesLE ((to_repr x).take 8)) ∧
      field_to_u64 x = .ok (low64 x) ∧
      (low64 x = low64 x' → low64 mi = low64 mi' → low64 ma = low64 ma' →
        validateFieldInputs x mi ma = validateFieldInputs x' mi' ma') := by
  intro x x' mi mi' ma ma'
  have hlen : (to_repr x).length = 32 := toBytesLE_length 32 (x % rBN)
  refine ⟨hlen, ?_, field_to_u64_eq x, ?_⟩
  · simp only [field_to_u64, hlen]
    norm_num
  · intro hx hmi hma
    rw [validateFieldInputs_eq, validateFieldInputs_eq, hx, hmi, hma]

end VeritasZeroHealth
